import Mathlib

/-!
Verification of the `rust-wurfl` facade (src/wurfl.rs, src/device.rs).

The Rust crate is a safe-language wrapper around the proprietary WURFL C
engine.  We shallowly embed the wrapper logic over byte strings:

* a Rust `&str` / `String` / C string is modelled as `Bytes := List Nat`
  (one `Nat` per byte, values < 256 on all real inputs);
* `std::str::from_utf8` is embedded as the executable validator `validUtf8`
  (RFC 3629, exactly the byte shapes Rust's validator accepts), and
  `Utf8Error::valid_up_to` as `utf8ValidUpTo`;
* `CString::new` fails exactly on an interior NUL byte (`hasNul`);
* a `.unwrap()` that can fail is embedded as the `RustResult.panic`
  constructor: a panic is a process crash, not a returned error value;
* the C engine calls (`wurfl_lookup_with_important_header`,
  `wurfl_get_device`, ...) are not part of the crate; they are supplied as
  fields of an `Engine` record, and where a claim depends on the engine's
  own behaviour the model is written from the specification and marked
  `Modelled from the spec:` in its doc comment.
-/

/-- A byte string (Rust `&[u8]`, `&str` bytes, or a C string's bytes). -/
abbrev Bytes := List Nat

/-- Is `b` a UTF-8 continuation byte (`0x80 ..= 0xBF`)? -/
def isCont (b : Nat) : Bool := 0x80 ≤ b && b ≤ 0xBF

/-- Embedding of `std::str::from_utf8`'s validity check: `true` iff the byte
sequence is well-formed UTF-8 (RFC 3629: no overlongs, no surrogates, no
code points above `U+10FFFF`). -/
def validUtf8 : Bytes → Bool
  | [] => true
  | b :: rest =>
    if b < 0x80 then validUtf8 rest
    else if b < 0xC2 then false
    else if b < 0xE0 then
      match rest with
      | [] => false
      | b1 :: r => isCont b1 && validUtf8 r
    else if b < 0xF0 then
      match rest with
      | [] => false
      | [_] => false
      | b1 :: b2 :: r =>
        (if b = 0xE0 then decide (0xA0 ≤ b1 && b1 ≤ 0xBF)
         else if b = 0xED then decide (0x80 ≤ b1 && b1 ≤ 0x9F)
         else isCont b1) && isCont b2 && validUtf8 r
    else if b < 0xF5 then
      match rest with
      | [] => false
      | [_] => false
      | [_, _] => false
      | b1 :: b2 :: b3 :: r =>
        (if b = 0xF0 then decide (0x90 ≤ b1 && b1 ≤ 0xBF)
         else if b = 0xF4 then decide (0x80 ≤ b1 && b1 ≤ 0x8F)
         else isCont b1) && isCont b2 && isCont b3 && validUtf8 r
    else false

/-- Embedding of `Utf8Error::valid_up_to`: the length in bytes of the longest
well-formed UTF-8 prefix (the index of the first byte of the first invalid
sequence). -/
def utf8ValidUpTo : Bytes → Nat
  | [] => 0
  | b :: rest =>
    if b < 0x80 then 1 + utf8ValidUpTo rest
    else if b < 0xC2 then 0
    else if b < 0xE0 then
      match rest with
      | [] => 0
      | b1 :: r => if isCont b1 then 2 + utf8ValidUpTo r else 0
    else if b < 0xF0 then
      match rest with
      | [] => 0
      | [_] => 0
      | b1 :: b2 :: r =>
        if ((if b = 0xE0 then decide (0xA0 ≤ b1 && b1 ≤ 0xBF)
             else if b = 0xED then decide (0x80 ≤ b1 && b1 ≤ 0x9F)
             else isCont b1) && isCont b2) then 3 + utf8ValidUpTo r else 0
    else if b < 0xF5 then
      match rest with
      | [] => 0
      | [_] => 0
      | [_, _] => 0
      | b1 :: b2 :: b3 :: r =>
        if ((if b = 0xF0 then decide (0x90 ≤ b1 && b1 ≤ 0xBF)
             else if b = 0xF4 then decide (0x80 ≤ b1 && b1 ≤ 0x8F)
             else isCont b1) && isCont b2 && isCont b3) then 4 + utf8ValidUpTo r else 0
    else 0

/-- Does the byte string contain a NUL byte?  `CString::new` fails exactly in
this case. -/
def hasNul (bs : Bytes) : Bool := bs.contains 0

/-- ASCII lower-casing of a single byte, the byte-level image of the
per-character lower-casing `String::to_lowercase` performs on the
ASCII-range characters that make up HTTP header names. -/
def byteLower (b : Nat) : Nat := if 65 ≤ b && b ≤ 90 then b + 32 else b

/-- Embedding of `key.to_string().to_lowercase()` on header-name bytes. -/
def lowerBytes (bs : Bytes) : Bytes := bs.map byteLower

/-- The UTF-8 bytes of one character. -/
def encodeChar (c : Char) : Bytes :=
  let n := c.toNat
  if n < 0x80 then [n]
  else if n < 0x800 then [0xC0 + n / 64, 0x80 + n % 64]
  else if n < 0x10000 then [0xE0 + n / 4096, 0x80 + n / 64 % 64, 0x80 + n % 64]
  else [0xF0 + n / 262144, 0x80 + n / 4096 % 64, 0x80 + n / 64 % 64, 0x80 + n % 64]

/-- The UTF-8 bytes of a Lean string literal, used to embed Rust string
literals (error messages) as `Bytes`. -/
def strB (s : String) : Bytes := s.data.foldr (fun c acc => encodeChar c ++ acc) []

/-- Outcome of a Rust computation that may `panic!` (via `.unwrap()`):
`panic` aborts the calling process instead of returning a value. -/
inductive RustResult (α : Type) where
  | ok : α → RustResult α
  | panic : String → RustResult α
deriving DecidableEq, Repr

/-- Is this outcome a panic? -/
def RustResult.isPanic {α : Type} : RustResult α → Bool
  | .ok _ => false
  | .panic _ => true

/-- Embedding of `to_str` (src/wurfl.rs): `CStr::to_str().unwrap()` — returns
the same bytes viewed as a `&str` when they are valid UTF-8, and panics
(crashes the process) otherwise. -/
def to_str (bs : Bytes) : RustResult Bytes :=
  if validUtf8 bs then .ok bs
  else .panic "called Result.unwrap on an Err value: Utf8Error"

/-- Embedding of the `WurflError` struct (src/wurfl.rs): an error value
carrying a message. -/
structure WurflError where
  msg : Bytes
deriving DecidableEq, Repr

/-- Embedding of the `MatchType` enum (src/wurfl.rs). -/
inductive MatchType where
  | WurflMatchTypeExact
  | WurflMatchTypeConclusive
  | WurflMatchTypeRecovery
  | WurflMatchTypeCatchall
  | WurflMatchTypeNone
  | WurflMatchTypeCached
deriving DecidableEq, Repr

/-- Embedding of the `WurflCacheProvider` enum (src/wurfl.rs). -/
inductive WurflCacheProvider where
  | NoCache
  | LRU
deriving DecidableEq, Repr

/-- Embedding of `Wurfl::get_error_message` (src/wurfl.rs): the bytes behind
`wurfl_get_error_message` pushed through `to_str` — panics when the engine
hands back non-UTF-8 error-message bytes. -/
def get_error_message (msg : Bytes) : RustResult Bytes := to_str msg

/-- The failure idiom shared by every engine-error branch of the wrapper:
`let err_msg = Wurfl::get_error_message(wh); return Err(WurflError {...})`.
Fetching the message can panic, so the branch either returns the error
value or crashes. -/
def engineErrorReturn (α : Type) (msg : Bytes) : RustResult (Except WurflError α) :=
  match get_error_message msg with
  | .ok m => .ok (.error ⟨m⟩)
  | .panic p => .panic p

/-- The same failure idiom in the construction sub-steps, whose surrounding
code yields `Option WurflError`. -/
def engineErrorStep (msg : Bytes) : RustResult (Option WurflError) :=
  match get_error_message msg with
  | .ok m => .ok (some ⟨m⟩)
  | .panic p => .panic p

/-- First-match lookup in an association list, the observable behaviour of
`HashMap::get` in the model where `HashMap::insert` conses the new entry in
front of the old ones. -/
def getA (m : List (Bytes × Bytes)) (k : Bytes) : Option Bytes :=
  match m with
  | [] => none
  | p :: rest => if p.1 = k then some p.2 else getA rest k

/-- Model of `HashMap::insert`: the new binding shadows any previous binding
of the same key (`getA` returns the most recent one). -/
def insertHM (m : List (Bytes × Bytes)) (k v : Bytes) : List (Bytes × Bytes) :=
  (k, v) :: m

/-- Embedding of the `important_header_cstring_names` map built in
`Wurfl::new` (src/wurfl.rs): for every important header name `s` enumerated
by the engine, an entry from `s.to_lowercase()` to the `CString` copy of the
original `s`. -/
def buildImportantMap (names : List Bytes) : List (Bytes × Bytes) :=
  names.foldl (fun m s => insertHM m (lowerBytes s) s) []

/-- Model of the data reachable through a `wurfl_device_handle`: the device
id, the static and virtual capability tables the C engine resolves against
(`wurfl_device_get_capability` returns NULL exactly when the name is absent
from the table), and the raw match-type code. -/
structure DeviceData where
  deviceId : Bytes
  caps : List (Bytes × Bytes)
  vcaps : List (Bytes × Bytes)
  matchTypeCode : Int
deriving DecidableEq, Repr

/-- Look a capability name up in a device's table
(`wurfl_device_get_capability` / `wurfl_device_get_virtual_capability`:
NULL result is `none`). -/
def lookupCap (table : List (Bytes × Bytes)) (name : Bytes) : Option Bytes :=
  match table with
  | [] => none
  | p :: rest => if p.1 = name then some p.2 else lookupCap rest name

/-- Model of the state reachable through a `wurfl_handle`.  The fields stand
for the C engine's behaviour at the wrapper's call sites: `importantNames`
is what `wurfl_get_important_header_enumerator` yields, `lookupIH` and
`getDeviceWithIH` are `wurfl_lookup_with_important_header` /
`wurfl_get_device_with_important_header` as functions of the finished
important-header structure, `devices` backs `wurfl_get_device`,
`errorMessage` is what `wurfl_get_error_message` returns, `ihCreateOk`
whether `wurfl_important_header_create` returns a non-NULL handle, and
`apiVersion` the bytes behind `wurfl_get_api_version`. -/
structure Engine where
  importantNames : List Bytes
  ihCreateOk : Bool
  lookupIH : (Bytes → Option Bytes) → Option DeviceData
  getDeviceWithIH : Bytes → (Bytes → Option Bytes) → Option DeviceData
  devices : List DeviceData
  errorMessage : Bytes
  apiVersion : Bytes

/-- The `important_header_cstring_names` field of the `Wurfl` struct, as
built by `Wurfl::new` from the engine's enumerated important headers. -/
def importantHeaderCStringNames (e : Engine) : List (Bytes × Bytes) :=
  buildImportantMap e.importantNames

/-- Embedding of the header-selection loop shared by
`Wurfl::lookup_with_headers` and `Wurfl::lookup_device_id_with_headers`
(src/wurfl.rs): for each `(key, value)` pair in iteration order, lower-case
the key; if it is in the important-header map, check the value for UTF-8
validity — an invalid value is skipped; a valid value containing a NUL byte
aborts with an error (`CString::new` fails); otherwise the canonical header
name and the value are appended to the sequence of
`wurfl_important_header_set` calls. -/
def selectHeaders (ih : List (Bytes × Bytes)) : List (Bytes × Bytes) → Except WurflError (List (Bytes × Bytes))
  | [] => .ok []
  | (k, v) :: rest =>
    match getA ih (lowerBytes k) with
    | some canonical =>
      if validUtf8 v then
        if hasNul v then .error ⟨strB "Unable to convert header value to C string"⟩
        else
          match selectHeaders ih rest with
          | .error e => .error e
          | .ok tail => .ok ((canonical, v) :: tail)
      else selectHeaders ih rest
    | none => selectHeaders ih rest

/-- Modelled from the spec: the C engine's important-header structure filled
by successive `wurfl_important_header_set` calls is a name → value mapping
in which a later set for the same name overwrites an earlier one; the list
argument holds the set calls in order. -/
def applySets : List (Bytes × Bytes) → Bytes → Option Bytes
  | [], _ => none
  | p :: later, n =>
    match applySets later n with
    | some v => some v
    | none => if p.1 = n then some p.2 else none

/-- Embedding of `Wurfl::lookup_with_headers` (src/wurfl.rs): create the
important-header structure (NULL handle is an error), run the selection
loop, then call `wurfl_lookup_with_important_header`; a NULL device handle
becomes an error carrying the engine's error message, whose fetch through
`get_error_message` panics on non-UTF-8 bytes. -/
def lookup_with_headers (e : Engine) (headers : List (Bytes × Bytes)) :
    RustResult (Except WurflError DeviceData) :=
  if e.ihCreateOk = false then engineErrorReturn DeviceData e.errorMessage
  else
    match selectHeaders (importantHeaderCStringNames e) headers with
    | .error err => .ok (.error err)
    | .ok sets =>
      match e.lookupIH (applySets sets) with
      | none => engineErrorReturn DeviceData e.errorMessage
      | some d => .ok (.ok d)

/-- Embedding of `Wurfl::lookup_device_id_with_headers` (src/wurfl.rs):
convert the device id to a C string (NUL byte is an error), create the
important-header structure, run the same selection loop, then call
`wurfl_get_device_with_important_header`. -/
def lookup_device_id_with_headers (e : Engine) (device_id : Bytes) (headers : List (Bytes × Bytes)) :
    RustResult (Except WurflError DeviceData) :=
  if hasNul device_id then
    .ok (.error ⟨strB "Unable to convert device id  " ++ device_id ++ strB "! into a CString"⟩)
  else if e.ihCreateOk = false then engineErrorReturn DeviceData e.errorMessage
  else
    match selectHeaders (importantHeaderCStringNames e) headers with
    | .error err => .ok (.error err)
    | .ok sets =>
      match e.getDeviceWithIH device_id (applySets sets) with
      | none => engineErrorReturn DeviceData e.errorMessage
      | some d => .ok (.ok d)

/-- Embedding of `Wurfl::lookup_device_id` (src/wurfl.rs): convert the id to
a C string, then call `wurfl_get_device`; a NULL handle becomes an error
carrying the engine's error message, whose fetch through
`get_error_message` panics on non-UTF-8 bytes.  Modelled from the spec:
`wurfl_get_device` is a direct database access, returning the device whose
id equals the argument and NULL when no device has that id. -/
def lookup_device_id (e : Engine) (device_id : Bytes) : RustResult (Except WurflError DeviceData) :=
  if hasNul device_id then
    .ok (.error ⟨strB "Unable to convert device id  " ++ device_id ++ strB "! into a CString"⟩)
  else
    match e.devices.find? (fun d => d.deviceId = device_id) with
    | none => engineErrorReturn DeviceData e.errorMessage
    | some d => .ok (.ok d)

/-- Embedding of `Wurfl::get_api_version` (src/wurfl.rs): `to_str` applied
to the C engine's version string — panics if those bytes are not UTF-8. -/
def get_api_version (e : Engine) : RustResult Bytes :=
  to_str e.apiVersion

/-- Embedding of `Device::get_device_id` (src/device.rs): `to_str` applied
to `wurfl_device_get_id`. -/
def get_device_id (d : DeviceData) : RustResult Bytes :=
  to_str d.deviceId

/-- Embedding of `Device::get_capability` (src/device.rs): a capability name
that cannot become a `CString` yields `None`; a NULL value pointer yields
`None`; otherwise the value goes through `to_str`, which panics on invalid
UTF-8. -/
def get_capability (d : DeviceData) (capability_name : Bytes) : RustResult (Option Bytes) :=
  if hasNul capability_name then .ok none
  else
    match lookupCap d.caps capability_name with
    | none => .ok none
    | some v =>
      match to_str v with
      | .ok s => .ok (some s)
      | .panic m => .panic m

/-- Embedding of `Device::get_virtual_capability` (src/device.rs), same
shape as `get_capability` over the virtual-capability table. -/
def get_virtual_capability (d : DeviceData) (virtual_capability_name : Bytes) : RustResult (Option Bytes) :=
  if hasNul virtual_capability_name then .ok none
  else
    match lookupCap d.vcaps virtual_capability_name with
    | none => .ok none
    | some v =>
      match to_str v with
      | .ok s => .ok (some s)
      | .panic m => .panic m

/-- The batch-resolution loop shared by `Device::get_capabilities` and
`Device::get_virtual_capabilities` (src/device.rs), parameterized over the
capability table and the two error-message builders: a name with a NUL byte
or a defined value that is not valid UTF-8 aborts the whole call with an
error; an undefined name is skipped; a defined, valid value is inserted
into the result map. -/
def batchGetAux (table : List (Bytes × Bytes)) (nameErr : Bytes → Bytes) (valErr : Bytes → Bytes → Bytes)
    (acc : List (Bytes × Bytes)) : List Bytes → Except WurflError (List (Bytes × Bytes))
  | [] => .ok acc
  | n :: rest =>
    if hasNul n then .error ⟨nameErr n⟩
    else
      match lookupCap table n with
      | none => batchGetAux table nameErr valErr acc rest
      | some v =>
        if validUtf8 v then batchGetAux table nameErr valErr (insertHM acc n v) rest
        else .error ⟨valErr n v⟩

/-- Embedding of `Device::get_capabilities` (src/device.rs). -/
def get_capabilities (d : DeviceData) (cap_names : List Bytes) : Except WurflError (List (Bytes × Bytes)) :=
  batchGetAux d.caps
    (fun n => strB "Unable to convert into a CString capability name  " ++ n)
    (fun n v => strB "Capability value for " ++ n ++
      strB " is an invalid UTF-8 string, it was valid until character " ++ strB (toString (utf8ValidUpTo v)))
    [] cap_names

/-- Embedding of `Device::get_virtual_capabilities` (src/device.rs). -/
def get_virtual_capabilities (d : DeviceData) (vcap_names : List Bytes) : Except WurflError (List (Bytes × Bytes)) :=
  batchGetAux d.vcaps
    (fun n => strB "Unable to convert  virtual capability name  " ++ n ++ strB "! into a CString")
    (fun n v => strB "Virtual capability value for " ++ n ++
      strB " is an invalid UTF-8 string, it was valid until characer " ++ strB (toString (utf8ValidUpTo v)))
    [] vcap_names

/-- Embedding of the raw-code dispatch inside `Device::get_match_type`
(src/device.rs). -/
def match_type_of_code (mt : Int) : MatchType :=
  if mt = 0 then .WurflMatchTypeExact
  else if mt = 1 then .WurflMatchTypeConclusive
  else if mt = 2 then .WurflMatchTypeRecovery
  else if mt = 3 then .WurflMatchTypeCatchall
  else if mt = 5 then .WurflMatchTypeNone
  else if mt = 6 then .WurflMatchTypeCached
  else .WurflMatchTypeNone

/-- Embedding of `Device::get_match_type` (src/device.rs): dispatch on the
code returned by `wurfl_device_get_match_type`. -/
def get_match_type (d : DeviceData) : MatchType :=
  match_type_of_code d.matchTypeCode

/-- Index of the first NUL byte, used by the `NulError` display message that
`format!("... {}", e)` embeds in `Wurfl::new`'s patch and filter errors. -/
def idxOfNul : Bytes → Nat
  | [] => 0
  | b :: rest => if b = 0 then 0 else 1 + idxOfNul rest

/-- The `Display` text of Rust's `NulError` for a byte string with an
interior NUL. -/
def nulErrorMsg (bs : Bytes) : Bytes :=
  strB "nul byte found in provided data at position: " ++ strB (toString (idxOfNul bs))

/-- Outcomes of the C calls `Wurfl::new` makes, one field per call site:
whether `wurfl_create` returns a handle, whether `wurfl_set_root`,
`wurfl_set_cache_provider`, `wurfl_add_patch` (per patch path),
`wurfl_add_requested_capability` (per capability name) and `wurfl_load`
succeed, whether `wurfl_get_important_header_enumerator` returns a handle,
the names that enumerator yields, and the engine's error message. -/
structure CEnv where
  createOk : Bool
  setRootOk : Bool
  setCacheOk : Bool
  patchOk : Bytes → Bool
  capOk : Bytes → Bool
  loadOk : Bool
  ihEnumOk : Bool
  importantNames : List Bytes
  errorMessage : Bytes

/-- The fields of the `Wurfl` struct that `Wurfl::new` builds (the raw
handle itself is not data). -/
structure WurflModel where
  importantHeaderNames : List Bytes
  importantHeaderCNames : List (Bytes × Bytes)
deriving DecidableEq

/-- The cache-provider step of `Wurfl::new`: only the LRU provider with a
present extra config triggers a `wurfl_set_cache_provider` call; a NUL byte
in the config or a failing call is an error. -/
def cacheStep (env : CEnv) (cache_provider : WurflCacheProvider) (cache_extra_config : Option Bytes) :
    RustResult (Option WurflError) :=
  match cache_provider with
  | .LRU =>
    match cache_extra_config with
    | some cfg =>
      if hasNul cfg then
        .ok (some ⟨strB "Invalid cache_extra_config passed in create WURFL engine. Possibly a nul character in the input string"⟩)
      else if env.setCacheOk = false then engineErrorStep env.errorMessage
      else .ok none
    | none => .ok none
  | .NoCache => .ok none

/-- The patch loop of `Wurfl::new`: each path is converted to a `CString`
(NUL byte fails with the `NulError` text) and handed to `wurfl_add_patch`;
the first failure aborts. -/
def addPatches (env : CEnv) : List Bytes → RustResult (Option WurflError)
  | [] => .ok none
  | p :: rest =>
    if hasNul p then .ok (some ⟨strB "Invalid patch path passed: " ++ nulErrorMsg p⟩)
    else if env.patchOk p = false then engineErrorStep env.errorMessage
    else addPatches env rest

/-- The capability-filter loop of `Wurfl::new`: each name is converted to a
`CString` and handed to `wurfl_add_requested_capability`; the first failure
aborts. -/
def addCapFilter (env : CEnv) : List Bytes → RustResult (Option WurflError)
  | [] => .ok none
  | c :: rest =>
    if hasNul c then .ok (some ⟨strB "Invalid capability filter passed: " ++ nulErrorMsg c⟩)
    else if env.capOk c = false then engineErrorStep env.errorMessage
    else addCapFilter env rest

/-- The important-header enumeration loop of `Wurfl::new`: every enumerated
name byte string goes through `to_owned_string` (which, like `to_str`,
panics on non-UTF-8 bytes), is kept in order, and is inserted lower-cased
into the `CString` map; a name that cannot become a `CString` (interior
NUL) aborts with an error. -/
def readImportantHeaders (acc : List Bytes) (accMap : List (Bytes × Bytes)) :
    List Bytes → RustResult (Except WurflError (List Bytes × List (Bytes × Bytes)))
  | [] => .ok (.ok (acc, accMap))
  | s :: rest =>
    match to_str s with
    | .panic p => .panic p
    | .ok sName =>
      if hasNul sName then
        .ok (.error ⟨strB "Cannot convert important header name " ++ sName ++ strB " to C String"⟩)
      else readImportantHeaders (acc ++ [sName]) (insertHM accMap (lowerBytes sName) sName) rest

/-- Embedding of `Wurfl::new` (src/wurfl.rs): handle creation, root-file
setting, cache configuration, patches, capability filter, load, and
important-header enumeration, in source order; the first failing step
returns its error and no engine value — except that fetching the engine's
error message, or converting an enumerated important-header name, panics on
non-UTF-8 engine bytes. -/
def wurfl_new (env : CEnv) (wurfl_xml : Bytes) (patches : Option (List Bytes)) (cap_filter : Option (List Bytes))
    (cache_provider : WurflCacheProvider) (cache_extra_config : Option Bytes) :
    RustResult (Except WurflError WurflModel) :=
  if env.createOk = false then .ok (.error ⟨strB "Wurfl handle is NULL"⟩)
  else if hasNul wurfl_xml then .ok (.error ⟨strB "Error creating CString from wurfl xml file path"⟩)
  else if env.setRootOk = false then engineErrorReturn WurflModel env.errorMessage
  else
    match cacheStep env cache_provider cache_extra_config with
    | .panic p => .panic p
    | .ok (some err) => .ok (.error err)
    | .ok none =>
      match addPatches env (patches.getD []) with
      | .panic p => .panic p
      | .ok (some err) => .ok (.error err)
      | .ok none =>
        match addCapFilter env (cap_filter.getD []) with
        | .panic p => .panic p
        | .ok (some err) => .ok (.error err)
        | .ok none =>
          if env.loadOk = false then engineErrorReturn WurflModel env.errorMessage
          else if env.ihEnumOk = false then engineErrorReturn WurflModel env.errorMessage
          else
            match readImportantHeaders [] [] env.importantNames with
            | .panic p => .panic p
            | .ok (.error err) => .ok (.error err)
            | .ok (.ok (names, cmap)) => .ok (.ok ⟨names, cmap⟩)

/-- Modelled from the spec: the Matching Engine of §4.3, which is inside the
proprietary C library and absent from this repository.  Each tier is a
partial function from the normalized key to a device id; `catchallDevice`
is the database's designated generic device, present exactly when the
database contains a catch-all. -/
structure MatchDb where
  cache : Bytes → Option Bytes
  exactMatch : Bytes → Option Bytes
  conclusiveMatch : Bytes → Option Bytes
  recoveryMatch : Bytes → Option Bytes
  catchallDevice : Option Bytes

/-- Modelled from the spec: the priority-ordered matching algorithm of §4.3
— cache probe, exact, conclusive, recovery, then catch-all; `none` only
when every tier, the catch-all included, has nothing. -/
def matchLookup (db : MatchDb) (key : Bytes) : Option (Bytes × MatchType) :=
  match db.cache key with
  | some d => some (d, .WurflMatchTypeCached)
  | none =>
    match db.exactMatch key with
    | some d => some (d, .WurflMatchTypeExact)
    | none =>
      match db.conclusiveMatch key with
      | some d => some (d, .WurflMatchTypeConclusive)
      | none =>
        match db.recoveryMatch key with
        | some d => some (d, .WurflMatchTypeRecovery)
        | none =>
          match db.catchallDevice with
          | some d => some (d, .WurflMatchTypeCatchall)
          | none => none

/-- The "bad header" test: an important header whose value is valid UTF-8
but contains a NUL byte, the one condition on which header selection
aborts. -/
def badHeader (ih : List (Bytes × Bytes)) (kv : Bytes × Bytes) : Bool :=
  (getA ih (lowerBytes kv.1)).isSome && validUtf8 kv.2 && hasNul kv.2

/-- The value the finished important-header structure holds for canonical
name `n`, read off the raw header list: the value of the last header whose
lower-cased name maps to `n` and whose value is valid UTF-8. -/
def selValue (ih : List (Bytes × Bytes)) : List (Bytes × Bytes) → Bytes → Option Bytes
  | [], _ => none
  | kv :: rest, n =>
    match selValue ih rest n with
    | some v => some v
    | none =>
      if getA ih (lowerBytes kv.1) = some n ∧ validUtf8 kv.2 = true then some kv.2 else none

/-- A generic catch-all device used as a concrete test fixture. -/
def devGeneric : DeviceData :=
  ⟨strB "generic", [(strB "brand_name", strB "Generic")], [(strB "is_mobile", strB "false")], 3⟩

/-- A concrete engine whose calls all succeed, used as a test fixture. -/
def engineOk : Engine :=
  { importantNames := [strB "User-Agent"]
  , ihCreateOk := true
  , lookupIH := fun _ => some devGeneric
  , getDeviceWithIH := fun _ _ => some devGeneric
  , devices := [devGeneric]
  , errorMessage := strB "engine error"
  , apiVersion := strB "1.2.3.4" }

/-- An engine whose `wurfl_get_api_version` bytes are not valid UTF-8. -/
def engineBadVersion : Engine :=
  { importantNames := []
  , ihCreateOk := true
  , lookupIH := fun _ => none
  , getDeviceWithIH := fun _ _ => none
  , devices := []
  , errorMessage := []
  , apiVersion := [255] }

/-- A device holding a non-UTF-8 static capability value and a non-UTF-8
virtual capability value. -/
def deviceBadCap : DeviceData :=
  ⟨strB "generic", [(strB "brand_name", [255])], [(strB "is_mobile", [254])], 0⟩

/-- A device with one defined, valid capability, mirroring the spec's
concrete scenario. -/
def deviceApple : DeviceData :=
  ⟨strB "iphone_ver1", [(strB "brand_name", strB "Apple")], [], 0⟩

/-- A database in which only the catch-all tier can answer. -/
def dbCatchallOnly : MatchDb :=
  ⟨fun _ => none, fun _ => none, fun _ => none, fun _ => none, some (strB "generic")⟩

/-- A construction environment in which every C call succeeds. -/
def envOk : CEnv :=
  { createOk := true
  , setRootOk := true
  , setCacheOk := true
  , patchOk := fun _ => true
  , capOk := fun _ => true
  , loadOk := true
  , ihEnumOk := true
  , importantNames := [strB "User-Agent"]
  , errorMessage := strB "engine error" }

/-- An engine with no devices whose error-message bytes are not valid
UTF-8. -/
def engineBadMsg : Engine :=
  { importantNames := []
  , ihCreateOk := true
  , lookupIH := fun _ => none
  , getDeviceWithIH := fun _ _ => none
  , devices := []
  , errorMessage := [255]
  , apiVersion := [] }

/-- A construction environment whose root-setting call fails while the
engine's error-message bytes are not valid UTF-8. -/
def envBadMsg : CEnv :=
  { createOk := true
  , setRootOk := false
  , setCacheOk := true
  , patchOk := fun _ => true
  , capOk := fun _ => true
  , loadOk := true
  , ihEnumOk := true
  , importantNames := []
  , errorMessage := [255] }

/-- An engine whose lookup answers with the value the important-header
structure holds for the important name `"A"` (byte 65), making the device
id reflect the composed matching key. -/
def engineKeyed : Engine :=
  { importantNames := [[65]]
  , ihCreateOk := true
  , lookupIH := fun m => some ⟨(m [65]).getD [], [], [], 0⟩
  , getDeviceWithIH := fun _ _ => none
  , devices := []
  , errorMessage := []
  , apiVersion := [] }

/-- A header map holding two distinct names, `"A"` and `"a"`, that
lower-case to the same important header name, with different values. -/
def headersAB : List (Bytes × Bytes) := [([65], [49]), ([97], [50])]

/-- A successful association-list lookup locates a member pair. -/
theorem getA_mem {m : List (Bytes × Bytes)} {k v : Bytes} (h : getA m k = some v) : (k, v) ∈ m := by
  induction m with
  | nil => simp [getA] at h
  | cons p rest ih =>
    obtain ⟨p1, p2⟩ := p
    by_cases hk : p1 = k
    · subst hk
      simp [getA] at h
      subst h
      exact List.mem_cons_self _ _
    · simp only [getA] at h
      rw [if_neg hk] at h
      exact List.mem_cons_of_mem _ (ih h)

/-- Every entry produced by folding `insertHM (lowerBytes s) s` over a name
list either was already in the accumulator or pairs a lower-cased name with
its original form. -/
theorem foldl_insert_mem {names : List Bytes} {acc : List (Bytes × Bytes)} {p : Bytes × Bytes}
    (h : p ∈ names.foldl (fun m s => insertHM m (lowerBytes s) s) acc) :
    p ∈ acc ∨ (p.1 = lowerBytes p.2 ∧ p.2 ∈ names) := by
  induction names generalizing acc with
  | nil => exact Or.inl h
  | cons s rest ih =>
    rcases @ih (insertHM acc (lowerBytes s) s) h with hacc | hinv
    · rcases List.mem_cons.mp (show p ∈ (lowerBytes s, s) :: acc from hacc) with heq | hmem
      · subst heq
        exact Or.inr ⟨rfl, List.mem_cons_self _ _⟩
      · exact Or.inl hmem
    · exact Or.inr ⟨hinv.1, List.mem_cons_of_mem _ hinv.2⟩

/-- Every entry of the important-header map pairs a lower-cased name with an
engine-enumerated important header name. -/
theorem buildMap_mem {names : List Bytes} {p : Bytes × Bytes} (h : p ∈ buildImportantMap names) :
    p.1 = lowerBytes p.2 ∧ p.2 ∈ names := by
  rcases @foldl_insert_mem _ [] _ h with habs | hinv
  · simp at habs
  · exact hinv

/-- A key is absent from the important-header map exactly when it is not the
lower-casing of any enumerated name. -/
theorem getA_foldl_none {names : List Bytes} {acc : List (Bytes × Bytes)} {x : Bytes} :
    getA (names.foldl (fun m s => insertHM m (lowerBytes s) s) acc) x = none ↔
      getA acc x = none ∧ x ∉ names.map lowerBytes := by
  induction names generalizing acc with
  | nil => simp
  | cons s rest ih =>
    rw [List.foldl_cons, ih]
    have hgetA : getA (insertHM acc (lowerBytes s) s) x = if lowerBytes s = x then some s else getA acc x := rfl
    rw [hgetA]
    by_cases hs : lowerBytes s = x
    · rw [if_pos hs]
      simp [hs.symm]
    · rw [if_neg hs]
      simp only [List.map_cons, List.mem_cons, not_or]
      constructor
      · rintro ⟨h1, h2⟩
        exact ⟨h1, fun he => hs he.symm, h2⟩
      · rintro ⟨h1, _, h3⟩
        exact ⟨h1, h3⟩

/-- `getA` on the important-header map misses exactly the keys that are not
lower-casings of important names. -/
theorem getA_buildMap_none {names : List Bytes} {x : Bytes} :
    getA (buildImportantMap names) x = none ↔ x ∉ names.map lowerBytes := by
  rw [buildImportantMap, getA_foldl_none]
  simp [getA]

/-- An important-header value that is not valid UTF-8 contributes nothing to
header selection: the selection over any header list containing it equals
the selection with it removed. -/
theorem select_skip (ih : List (Bytes × Bytes)) (pre post : List (Bytes × Bytes)) (k v : Bytes)
    (hv : validUtf8 v = false) :
    selectHeaders ih (pre ++ (k, v) :: post) = selectHeaders ih (pre ++ post) := by
  induction pre with
  | nil =>
    simp only [List.nil_append, selectHeaders]
    cases hg : getA ih (lowerBytes k) <;> simp [hg, hv]
  | cons p pre ihp =>
    obtain ⟨pk, pv⟩ := p
    simp only [List.cons_append, selectHeaders, List.append_eq] at ihp ⊢
    rw [ihp]

/-- The only error header selection can produce is the header-value
`CString` conversion failure. -/
theorem select_error_msg {ih h : List (Bytes × Bytes)} {err : WurflError}
    (he : selectHeaders ih h = .error err) :
    err = ⟨strB "Unable to convert header value to C string"⟩ := by
  induction h generalizing err with
  | nil => simp [selectHeaders] at he
  | cons p rest ihp =>
    obtain ⟨k, v⟩ := p
    simp only [selectHeaders] at he
    cases hg : getA ih (lowerBytes k) with
    | none =>
      rw [hg] at he
      exact ihp he
    | some c =>
      rw [hg] at he
      by_cases hv : validUtf8 v = true
      · by_cases hn : hasNul v = true
        · simp [hv, hn] at he
          exact he.symm
        · simp only [hv, hn, if_true, if_false] at he
          cases hr : selectHeaders ih rest with
          | error e2 =>
            rw [hr] at he
            simp at he
            rw [← he]
            exact ihp hr
          | ok t =>
            rw [hr] at he
            simp at he
      · simp only [Bool.not_eq_true] at hv
        simp only [hv, Bool.false_eq_true, if_false] at he
        exact ihp he

/-- Header selection succeeds exactly when the header list has no bad
header. -/
theorem select_isOk_eq {ih : List (Bytes × Bytes)} : ∀ {h : List (Bytes × Bytes)},
    (selectHeaders ih h).isOk = !(h.any (badHeader ih)) := by
  intro h
  induction h with
  | nil => simp [selectHeaders, Except.isOk, Except.toBool]
  | cons p rest ihp =>
    obtain ⟨k, v⟩ := p
    simp only [selectHeaders, List.any_cons, badHeader]
    cases hg : getA ih (lowerBytes k) with
    | none => simp [hg, ihp]
    | some c =>
      by_cases hv : validUtf8 v = true
      · by_cases hn : hasNul v = true
        · simp [hg, hv, hn, Except.isOk, Except.toBool]
        · simp only [hg, hv, hn, if_true, if_false, Bool.and_false, Bool.false_or]
          cases hr : selectHeaders ih rest with
          | error e2 =>
            rw [hr] at ihp
            simp [Except.isOk, Except.toBool] at ihp ⊢
            exact ihp
          | ok t =>
            rw [hr] at ihp
            simp [Except.isOk, Except.toBool] at ihp ⊢
            exact ihp
      · simp only [Bool.not_eq_true] at hv
        simp [hg, hv, ihp]

/-- On a successful selection, the important-header structure built from the
set calls agrees pointwise with `selValue` over the raw header list. -/
theorem applySets_eq_selValue {ih : List (Bytes × Bytes)} : ∀ {h s : List (Bytes × Bytes)},
    selectHeaders ih h = .ok s → ∀ n, applySets s n = selValue ih h n := by
  intro h
  induction h with
  | nil =>
    intro s hs n
    simp [selectHeaders] at hs
    subst hs
    rfl
  | cons p rest ihp =>
    obtain ⟨k, v⟩ := p
    intro s hs n
    simp only [selectHeaders] at hs
    cases hg : getA ih (lowerBytes k) with
    | none =>
      rw [hg] at hs
      rw [ihp hs n]
      simp only [selValue]
      cases hrest : selValue ih rest n with
      | some w => simp
      | none => simp [hg]
    | some c =>
      rw [hg] at hs
      by_cases hv : validUtf8 v = true
      · by_cases hn : hasNul v = true
        · simp [hv, hn] at hs
        · simp only [hv, hn, if_true, if_false] at hs
          cases hr : selectHeaders ih rest with
          | error e2 =>
            rw [hr] at hs
            simp at hs
          | ok t =>
            rw [hr] at hs
            simp at hs
            subst hs
            simp only [applySets, selValue]
            rw [ihp hr n]
            cases hrest : selValue ih rest n with
            | some w => simp
            | none =>
              simp only [hg, hv]
              by_cases hc : c = n
              · simp [hc]
              · simp only [if_neg hc]
                have : ¬(some c = some n ∧ True) := fun hcn => hc (Option.some.inj hcn.1)
                simp [hc]
      · simp only [Bool.not_eq_true] at hv
        simp only [hv, Bool.false_eq_true, if_false] at hs
        rw [ihp hs n]
        simp only [selValue]
        cases hrest : selValue ih rest n with
        | some w => simp
        | none => simp [hv]

/-- Under pairwise-distinct lower-cased header names, `selValue` is
invariant under permutation of the header list, provided every map entry
pairs a lower-cased name with its canonical form. -/
theorem selValue_perm {ih : List (Bytes × Bytes)} (hinv : ∀ p ∈ ih, p.1 = lowerBytes p.2)
    {h1 h2 : List (Bytes × Bytes)} (hp : h1.Perm h2) :
    (h1.map fun kv => lowerBytes kv.1).Nodup → ∀ n, selValue ih h1 n = selValue ih h2 n := by
  induction hp with
  | nil => intro _ _; rfl
  | cons x t ihp =>
    intro hnd n
    simp only [List.map_cons, List.nodup_cons] at hnd
    simp only [selValue]
    rw [ihp hnd.2 n]
  | swap x y t =>
    intro hnd n
    simp only [List.map_cons, List.nodup_cons, List.mem_cons, not_or] at hnd
    have hxy : lowerBytes y.1 ≠ lowerBytes x.1 := hnd.1.1
    simp only [selValue]
    cases hrest : selValue ih t n with
    | some w => simp
    | none =>
      by_cases hx : getA ih (lowerBytes x.1) = some n ∧ validUtf8 x.2 = true
      · by_cases hy : getA ih (lowerBytes y.1) = some n ∧ validUtf8 y.2 = true
        · exfalso
          have hx1 : lowerBytes x.1 = lowerBytes n := hinv _ (getA_mem hx.1)
          have hy1 : lowerBytes y.1 = lowerBytes n := hinv _ (getA_mem hy.1)
          exact hxy (hy1.trans hx1.symm)
        · simp [hx, hy]
      · by_cases hy : getA ih (lowerBytes y.1) = some n ∧ validUtf8 y.2 = true
        · simp [hx, hy]
        · simp [hx, hy]
  | trans p12 p23 ih12 ih23 =>
    intro hnd n
    have hnd2 := (p12.map (fun kv => lowerBytes kv.1)).nodup hnd
    rw [ih12 hnd n, ih23 hnd2 n]

/-- Every canonical header name a successful selection passes to the engine
is one of the engine's enumerated important header names. -/
theorem select_ok_canonical {names : List Bytes} : ∀ {h s : List (Bytes × Bytes)},
    selectHeaders (buildImportantMap names) h = .ok s → ∀ p ∈ s, p.1 ∈ names := by
  intro h
  induction h with
  | nil =>
    intro s hs p hps
    simp [selectHeaders] at hs
    subst hs
    simp at hps
  | cons q rest ihp =>
    obtain ⟨k, v⟩ := q
    intro s hs p hps
    simp only [selectHeaders] at hs
    cases hg : getA (buildImportantMap names) (lowerBytes k) with
    | none =>
      rw [hg] at hs
      exact ihp hs p hps
    | some c =>
      rw [hg] at hs
      by_cases hv : validUtf8 v = true
      · by_cases hn : hasNul v = true
        · simp [hv, hn] at hs
        · simp only [hv, hn, if_true, if_false] at hs
          cases hr : selectHeaders (buildImportantMap names) rest with
          | error e2 =>
            rw [hr] at hs
            simp at hs
          | ok t =>
            rw [hr] at hs
            simp at hs
            subst hs
            rcases List.mem_cons.mp hps with heq | hmem
            · subst heq
              exact (buildMap_mem (getA_mem hg)).2
            · exact ihp hr p hmem
      · simp only [Bool.not_eq_true] at hv
        simp only [hv, Bool.false_eq_true, if_false] at hs
        exact ihp hs p hps

/-- Batch capability resolution succeeds exactly when every requested name
is NUL-free and every value defined for a requested name is valid UTF-8. -/
theorem batch_isOk_iff {table : List (Bytes × Bytes)} {ne : Bytes → Bytes} {ve : Bytes → Bytes → Bytes} :
    ∀ {names : List Bytes} {acc : List (Bytes × Bytes)},
    (batchGetAux table ne ve acc names).isOk = true ↔
      ∀ n ∈ names, hasNul n = false ∧ ∀ v, lookupCap table n = some v → validUtf8 v = true := by
  intro names
  induction names with
  | nil =>
    intro acc
    simp [batchGetAux, Except.isOk, Except.toBool]
  | cons n rest ih =>
    intro acc
    simp only [batchGetAux]
    by_cases hn : hasNul n = true
    · simp only [hn, if_true]
      constructor
      · intro h
        simp [Except.isOk, Except.toBool] at h
      · intro h
        have := (h n (List.mem_cons_self _ _)).1
        rw [hn] at this
        exact absurd this (by simp)
    · simp only [Bool.not_eq_true] at hn
      simp only [hn, Bool.false_eq_true, if_false]
      cases hl : lookupCap table n with
      | none => simp [hn, hl, ih, List.forall_mem_cons]
      | some v =>
        by_cases hv : validUtf8 v = true
        · simp [hn, hl, hv, ih, List.forall_mem_cons]
        · simp only [Bool.not_eq_true] at hv
          simp [hn, hl, hv, Except.isOk, Except.toBool, List.forall_mem_cons]

/-- The result map of a successful batch resolution: a requested name
defined in the table appears with its table value; every other key falls
back to the accumulator (so: absent from the final map when the
accumulator starts empty). -/
theorem batch_ok_getA {table : List (Bytes × Bytes)} {ne : Bytes → Bytes} {ve : Bytes → Bytes → Bytes} :
    ∀ {names : List Bytes} {acc m : List (Bytes × Bytes)},
    batchGetAux table ne ve acc names = .ok m → ∀ x,
      getA m x = if x ∈ names ∧ (lookupCap table x).isSome then lookupCap table x else getA acc x := by
  intro names
  induction names with
  | nil =>
    intro acc m hok x
    simp [batchGetAux] at hok
    subst hok
    simp
  | cons n rest ih =>
    intro acc m hok x
    by_cases hn : hasNul n = true
    · simp [batchGetAux, hn] at hok
    · simp only [Bool.not_eq_true] at hn
      cases hl : lookupCap table n with
      | none =>
        simp only [batchGetAux, hn, Bool.false_eq_true, if_false, hl] at hok
        rw [ih hok x]
        by_cases hx : x = n
        · subst hx
          simp [hl]
        · simp [hx, List.mem_cons]
      | some v =>
        simp only [batchGetAux, hn, Bool.false_eq_true, if_false, hl] at hok
        by_cases hv : validUtf8 v = true
        · rw [if_pos hv] at hok
          rw [ih hok x]
          by_cases hx : x = n
          · subst hx
            simp only [hl, Option.isSome_some, and_true, List.mem_cons, true_or, if_true]
            by_cases hr : x ∈ rest
            · simp [hr, hl]
            · simp [hr, insertHM, getA, hl]
          · simp only [List.mem_cons, hx, false_or]
            by_cases hc : x ∈ rest ∧ (lookupCap table x).isSome
            · simp [hc]
            · have hskip : getA (insertHM acc n v) x = getA acc x := by
                simp only [insertHM, getA]
                rw [if_neg (fun h : n = x => hx h.symm)]
              simp [hc, hskip]
        · simp only [Bool.not_eq_true] at hv
          simp [hv] at hok

/-- With valid-UTF-8 error-message bytes, the engine-error idiom returns
the error value. -/
theorem engineErrorReturn_valid {α : Type} {m : Bytes} (h : validUtf8 m = true) :
    engineErrorReturn α m = .ok (.error ⟨m⟩) := by
  simp [engineErrorReturn, get_error_message, to_str, h]

/-- With non-UTF-8 error-message bytes, the engine-error idiom panics. -/
theorem engineErrorReturn_invalid {α : Type} {m : Bytes} (h : validUtf8 m = false) :
    (engineErrorReturn α m).isPanic = true := by
  simp [engineErrorReturn, get_error_message, to_str, h, RustResult.isPanic]

/-- The engine-error idiom never yields a successful value. -/
theorem engineErrorReturn_ne_ok {α : Type} {m : Bytes} {a : α} :
    engineErrorReturn α m ≠ .ok (.ok a) := by
  by_cases h : validUtf8 m = true <;>
    simp [engineErrorReturn, get_error_message, to_str, h]

/-- With valid-UTF-8 error-message bytes, the `Option`-shaped engine-error
idiom returns the error. -/
theorem engineErrorStep_valid {m : Bytes} (h : validUtf8 m = true) :
    engineErrorStep m = .ok (some ⟨m⟩) := by
  simp [engineErrorStep, get_error_message, to_str, h]

/-- The `Option`-shaped engine-error idiom never reports success. -/
theorem engineErrorStep_ne_ok_none {m : Bytes} : engineErrorStep m ≠ .ok none := by
  by_cases h : validUtf8 m = true <;>
    simp [engineErrorStep, get_error_message, to_str, h]

/-- The patch loop succeeds exactly when every patch path is NUL-free and
accepted by `wurfl_add_patch`. -/
theorem addPatches_none_iff {env : CEnv} : ∀ {l : List Bytes},
    addPatches env l = .ok none ↔ ∀ p ∈ l, hasNul p = false ∧ env.patchOk p = true := by
  intro l
  induction l with
  | nil => simp [addPatches]
  | cons p rest ih =>
    simp only [addPatches]
    by_cases hn : hasNul p = true
    · simp [hn]
    · simp only [Bool.not_eq_true] at hn
      by_cases ho : env.patchOk p = true
      · simp [hn, ho, ih, List.forall_mem_cons]
      · simp [hn, ho, List.forall_mem_cons, engineErrorStep_ne_ok_none]

/-- With valid-UTF-8 engine error bytes the patch loop never panics. -/
theorem addPatches_not_panic (env : CEnv) (h : validUtf8 env.errorMessage = true) :
    ∀ l : List Bytes, (addPatches env l).isPanic = false := by
  intro l
  induction l with
  | nil => simp [addPatches, RustResult.isPanic]
  | cons p rest ih =>
    simp only [addPatches]
    by_cases hn : hasNul p = true
    · simp [hn, RustResult.isPanic]
    · simp only [Bool.not_eq_true] at hn
      by_cases ho : env.patchOk p = true
      · simp [hn, ho, ih]
      · simp [hn, ho, engineErrorStep_valid h, RustResult.isPanic]

/-- The capability-filter loop succeeds exactly when every name is NUL-free
and accepted by `wurfl_add_requested_capability`. -/
theorem addCapFilter_none_iff {env : CEnv} : ∀ {l : List Bytes},
    addCapFilter env l = .ok none ↔ ∀ c ∈ l, hasNul c = false ∧ env.capOk c = true := by
  intro l
  induction l with
  | nil => simp [addCapFilter]
  | cons c rest ih =>
    simp only [addCapFilter]
    by_cases hn : hasNul c = true
    · simp [hn]
    · simp only [Bool.not_eq_true] at hn
      by_cases ho : env.capOk c = true
      · simp [hn, ho, ih, List.forall_mem_cons]
      · simp [hn, ho, List.forall_mem_cons, engineErrorStep_ne_ok_none]

/-- With valid-UTF-8 engine error bytes the filter loop never panics. -/
theorem addCapFilter_not_panic (env : CEnv) (h : validUtf8 env.errorMessage = true) :
    ∀ l : List Bytes, (addCapFilter env l).isPanic = false := by
  intro l
  induction l with
  | nil => simp [addCapFilter, RustResult.isPanic]
  | cons c rest ih =>
    simp only [addCapFilter]
    by_cases hn : hasNul c = true
    · simp [hn, RustResult.isPanic]
    · simp only [Bool.not_eq_true] at hn
      by_cases ho : env.capOk c = true
      · simp [hn, ho, ih]
      · simp [hn, ho, engineErrorStep_valid h, RustResult.isPanic]

/-- The cache step succeeds exactly when it is skipped (no LRU provider or
no extra config) or the config is NUL-free and accepted. -/
theorem cacheStep_none_iff {env : CEnv} {prov : WurflCacheProvider} {cfg : Option Bytes} :
    cacheStep env prov cfg = .ok none ↔
      (prov = .LRU → ∀ c, cfg = some c → hasNul c = false ∧ env.setCacheOk = true) := by
  cases prov with
  | NoCache => simp [cacheStep]
  | LRU =>
    cases cfg with
    | none => simp [cacheStep]
    | some c =>
      by_cases hn : hasNul c = true
      · simp [cacheStep, hn]
      · simp only [Bool.not_eq_true] at hn
        by_cases ho : env.setCacheOk = true
        · simp [cacheStep, hn, ho]
        · simp [cacheStep, hn, ho, engineErrorStep_ne_ok_none]

/-- With valid-UTF-8 engine error bytes the cache step never panics. -/
theorem cacheStep_not_panic (env : CEnv) (prov : WurflCacheProvider) (cfg : Option Bytes)
    (h : validUtf8 env.errorMessage = true) :
    (cacheStep env prov cfg).isPanic = false := by
  cases prov with
  | NoCache => simp [cacheStep, RustResult.isPanic]
  | LRU =>
    cases cfg with
    | none => simp [cacheStep, RustResult.isPanic]
    | some c =>
      by_cases hn : hasNul c = true
      · simp [cacheStep, hn, RustResult.isPanic]
      · simp only [Bool.not_eq_true] at hn
        by_cases ho : env.setCacheOk = true
        · simp [cacheStep, hn, ho, RustResult.isPanic]
        · simp [cacheStep, hn, ho, engineErrorStep_valid h, RustResult.isPanic]

/-- The important-header enumeration returns an engine part exactly when
every enumerated name is valid UTF-8 (no `to_owned_string` panic) and
NUL-free (no `CString` failure). -/
theorem readIH_ok_iff : ∀ {names : List Bytes} {acc : List Bytes} {accMap : List (Bytes × Bytes)},
    (∃ r, readImportantHeaders acc accMap names = .ok (.ok r)) ↔
      ∀ s ∈ names, validUtf8 s = true ∧ hasNul s = false := by
  intro names
  induction names with
  | nil =>
    intro acc accMap
    simp [readImportantHeaders]
  | cons s rest ih =>
    intro acc accMap
    simp only [readImportantHeaders]
    by_cases hu : validUtf8 s = true
    · simp only [to_str, hu, if_true]
      by_cases hn : hasNul s = true
      · simp [hn, hu, List.forall_mem_cons]
      · simp only [Bool.not_eq_true] at hn
        simp [hn, hu, ih, List.forall_mem_cons]
    · simp only [Bool.not_eq_true] at hu
      simp [to_str, hu, List.forall_mem_cons]

/-- With valid-UTF-8 enumerated names the enumeration loop never panics. -/
theorem readIH_not_panic : ∀ (names acc : List Bytes) (accMap : List (Bytes × Bytes)),
    (∀ s ∈ names, validUtf8 s = true) →
    (readImportantHeaders acc accMap names).isPanic = false := by
  intro names
  induction names with
  | nil =>
    intro acc accMap hv
    simp [readImportantHeaders, RustResult.isPanic]
  | cons s rest ih =>
    intro acc accMap hv
    have hu : validUtf8 s = true := hv s (List.mem_cons_self _ _)
    simp only [readImportantHeaders, to_str, hu, if_true]
    by_cases hn : hasNul s = true
    · simp [hn, RustResult.isPanic]
    · simp only [Bool.not_eq_true] at hn
      simp only [hn, Bool.false_eq_true, if_false]
      exact ih _ _ (fun t ht => hv t (List.mem_cons_of_mem _ ht))

/-- A successful important-header enumeration yields the names in order and
the lower-cased-name map folded over them. -/
theorem readIH_ok_val : ∀ {names : List Bytes} {acc : List Bytes} {accMap : List (Bytes × Bytes)}
    {r : List Bytes × List (Bytes × Bytes)},
    readImportantHeaders acc accMap names = .ok (.ok r) →
    r = (acc ++ names, names.foldl (fun m s => insertHM m (lowerBytes s) s) accMap) := by
  intro names
  induction names with
  | nil =>
    intro acc accMap r hok
    simp [readImportantHeaders] at hok
    simp [← hok]
  | cons s rest ih =>
    intro acc accMap r hok
    simp only [readImportantHeaders] at hok
    by_cases hu : validUtf8 s = true
    · simp only [to_str, hu, if_true] at hok
      by_cases hn : hasNul s = true
      · simp [hn] at hok
      · simp only [Bool.not_eq_true] at hn
        simp only [hn, Bool.false_eq_true, if_false] at hok
        rw [ih hok]
        simp
    · simp only [Bool.not_eq_true] at hu
      simp [to_str, hu] at hok

/-- C1: an important header whose value bytes are not valid UTF-8 is skipped
and the lookup proceeds exactly as if that header were absent, in both
`lookup_with_headers` and `lookup_device_id_with_headers`; in particular the
bad header never makes the lookup itself return an error. -/
theorem c1_bad_header_skipped (e : Engine) (device_id : Bytes) (pre post : List (Bytes × Bytes))
    (k v : Bytes) (hv : validUtf8 v = false) :
    lookup_with_headers e (pre ++ (k, v) :: post) = lookup_with_headers e (pre ++ post) ∧
    lookup_device_id_with_headers e device_id (pre ++ (k, v) :: post) =
      lookup_device_id_with_headers e device_id (pre ++ post) := by
  constructor
  · simp only [lookup_with_headers, select_skip _ pre post k v hv]
  · simp only [lookup_device_id_with_headers, select_skip _ pre post k v hv]

/-- C1 witness: a concrete non-UTF-8 header value (`[255]`) is skipped. -/
theorem c1_witness :
    validUtf8 [255] = false ∧
    lookup_with_headers engineOk ([] ++ (strB "User-Agent", [255]) :: []) =
      lookup_with_headers engineOk ([] ++ []) :=
  ⟨by decide, (c1_bad_header_skipped engineOk [] [] [] (strB "User-Agent") [255] (by decide)).1⟩

/-- C2 counterexample: when the underlying engine returns non-UTF-8 bytes
for the API version, `get_api_version` panics (crashes the caller's
process) via `to_str`'s `unwrap` instead of returning an error value. -/
theorem c2_counterexample : (get_api_version engineBadVersion).isPanic = true := by decide

/-- C2 (amended): operations return explicit error values and never crash
exactly when the engine-supplied byte strings they consume are valid
UTF-8: valid bytes convert and return normally (`to_str`,
`get_api_version`), and the lookups cannot panic when the engine's
error-message bytes are valid UTF-8; but any non-UTF-8 engine string — a
value reaching `to_str`, or the error message fetched by
`get_error_message` on a failure path of a lookup — panics (crashes the
caller's process) instead of producing an error value. -/
theorem c2_fallible_ops (e : Engine) (bs id : Bytes) (headers : List (Bytes × Bytes)) :
    (validUtf8 bs = true → to_str bs = .ok bs) ∧
    (validUtf8 bs = false → (to_str bs).isPanic = true) ∧
    (validUtf8 e.apiVersion = true → get_api_version e = .ok e.apiVersion) ∧
    (validUtf8 e.errorMessage = true → (lookup_device_id e id).isPanic = false) ∧
    (validUtf8 e.errorMessage = true → (lookup_with_headers e headers).isPanic = false) ∧
    (validUtf8 e.errorMessage = false → hasNul id = false → (∀ d ∈ e.devices, d.deviceId ≠ id) →
      (lookup_device_id e id).isPanic = true) := by
  refine ⟨fun h => ?_, fun h => ?_, fun h => ?_, fun h => ?_, fun h => ?_, fun h hn habs => ?_⟩
  · simp [to_str, h]
  · simp [to_str, h, RustResult.isPanic]
  · simp [get_api_version, to_str, h]
  · unfold lookup_device_id
    by_cases hnul : hasNul id = true
    · simp [hnul, RustResult.isPanic]
    · simp only [Bool.not_eq_true] at hnul
      simp only [hnul, Bool.false_eq_true, if_false]
      cases hf : e.devices.find? (fun d => d.deviceId = id) with
      | none => simp [hf, engineErrorReturn_valid h, RustResult.isPanic]
      | some d => simp [hf, RustResult.isPanic]
  · unfold lookup_with_headers
    by_cases hih : e.ihCreateOk = false
    · simp [hih, engineErrorReturn_valid h, RustResult.isPanic]
    · rw [if_neg hih]
      cases hs : selectHeaders (importantHeaderCStringNames e) headers with
      | error err => simp [hs, RustResult.isPanic]
      | ok sets =>
        cases hl : e.lookupIH (applySets sets) with
        | none => simp [hs, hl, engineErrorReturn_valid h, RustResult.isPanic]
        | some d => simp [hs, hl, RustResult.isPanic]
  · have hfind : e.devices.find? (fun d => d.deviceId = id) = none := by
      rw [List.find?_eq_none]
      intro x hx
      simp [habs x hx]
    simp [lookup_device_id, hn, hfind, engineErrorReturn_invalid h]

/-- C2 witness: concrete valid-UTF-8 engine values convert without panic
and a lookup against a valid-error-message engine cannot crash. -/
theorem c2_witness :
    to_str [65] = RustResult.ok [65] ∧
    get_api_version engineOk = RustResult.ok (strB "1.2.3.4") ∧
    (lookup_device_id engineOk (strB "nope")).isPanic = false :=
  ⟨(c2_fallible_ops engineOk [65] [] []).1 (by decide),
   (c2_fallible_ops engineOk [65] [] []).2.2.1 (by decide),
   (c2_fallible_ops engineOk [65] (strB "nope") []).2.2.2.1 (by decide)⟩

/-- C3 counterexample: a defined capability value that is not valid UTF-8
makes `get_capability` (and `get_virtual_capability`) panic through
`to_str`, instead of reporting a resolver-level error value distinct from
the undefined outcome. -/
theorem c3_counterexample :
    (get_capability deviceBadCap (strB "brand_name")).isPanic = true ∧
    (get_virtual_capability deviceBadCap (strB "is_mobile")).isPanic = true := by decide

/-- C3 (amended): `get_capability` / `get_virtual_capability` return the
value when it is defined and valid UTF-8, `none` when the capability is
undefined for the device (and also when the requested name contains a NUL
byte); a defined value that is not valid UTF-8 causes a panic, not an
error value. -/
theorem c3_capability_resolution (d : DeviceData) (name : Bytes) :
    (hasNul name = false → lookupCap d.caps name = none → get_capability d name = .ok none) ∧
    (∀ v, hasNul name = false → lookupCap d.caps name = some v → validUtf8 v = true →
      get_capability d name = .ok (some v)) ∧
    (∀ v, hasNul name = false → lookupCap d.caps name = some v → validUtf8 v = false →
      (get_capability d name).isPanic = true) ∧
    (hasNul name = true → get_capability d name = .ok none) ∧
    (hasNul name = false → lookupCap d.vcaps name = none → get_virtual_capability d name = .ok none) ∧
    (∀ v, hasNul name = false → lookupCap d.vcaps name = some v → validUtf8 v = true →
      get_virtual_capability d name = .ok (some v)) ∧
    (∀ v, hasNul name = false → lookupCap d.vcaps name = some v → validUtf8 v = false →
      (get_virtual_capability d name).isPanic = true) ∧
    (hasNul name = true → get_virtual_capability d name = .ok none) := by
  refine ⟨fun h1 h2 => ?_, fun v h1 h2 h3 => ?_, fun v h1 h2 h3 => ?_, fun h1 => ?_,
         fun h1 h2 => ?_, fun v h1 h2 h3 => ?_, fun v h1 h2 h3 => ?_, fun h1 => ?_⟩ <;>
    simp_all [get_capability, get_virtual_capability, to_str, RustResult.isPanic]

/-- C3 witness: a defined capability resolves to its value and an undefined
one to `none`. -/
theorem c3_witness :
    get_capability deviceApple (strB "brand_name") = RustResult.ok (some (strB "Apple")) ∧
    get_capability deviceApple (strB "undefined_cap") = RustResult.ok none :=
  ⟨(c3_capability_resolution deviceApple (strB "brand_name")).2.1 (strB "Apple")
      (by decide) (by decide) (by decide),
   (c3_capability_resolution deviceApple (strB "undefined_cap")).1 (by decide) (by decide)⟩

/-- C5: header selection is case-insensitive in the header name — two names
with the same lower-casing select identically — and only headers whose
lower-cased name is a lower-cased important header name contribute; every
canonical name handed to the engine is an enumerated important header
name. -/
theorem c5_case_insensitive_selection (e : Engine) (k1 k2 v : Bytes) (rest : List (Bytes × Bytes)) :
    (lowerBytes k1 = lowerBytes k2 →
      selectHeaders (importantHeaderCStringNames e) ((k1, v) :: rest) =
        selectHeaders (importantHeaderCStringNames e) ((k2, v) :: rest)) ∧
    (lowerBytes k1 ∉ e.importantNames.map lowerBytes →
      selectHeaders (importantHeaderCStringNames e) ((k1, v) :: rest) =
        selectHeaders (importantHeaderCStringNames e) rest) ∧
    (∀ s, selectHeaders (importantHeaderCStringNames e) rest = .ok s → ∀ p ∈ s, p.1 ∈ e.importantNames) := by
  refine ⟨fun hk => ?_, fun hk => ?_, fun s hs p hp => ?_⟩
  · simp only [selectHeaders, hk]
  · have hg : getA (importantHeaderCStringNames e) (lowerBytes k1) = none :=
      getA_buildMap_none.mpr hk
    simp only [selectHeaders, hg]
  · exact select_ok_canonical hs p hp

/-- C5 witness: an upper-cased important header selects like its lower-cased
form, and an unimportant header is ignored. -/
theorem c5_witness :
    selectHeaders (importantHeaderCStringNames engineOk) [(strB "USER-AGENT", strB "Mozilla")] =
      selectHeaders (importantHeaderCStringNames engineOk) [(strB "user-agent", strB "Mozilla")] ∧
    selectHeaders (importantHeaderCStringNames engineOk) [(strB "X-Custom", strB "zzz")] =
      selectHeaders (importantHeaderCStringNames engineOk) [] :=
  ⟨(c5_case_insensitive_selection engineOk (strB "USER-AGENT") (strB "user-agent") (strB "Mozilla") []).1
      (by decide),
   (c5_case_insensitive_selection engineOk (strB "X-Custom") [] (strB "zzz") []).2.1 (by decide)⟩

/-- C9: the spec-modelled matching algorithm never classifies a result as
`None` when the database has a catch-all device: some tier, at worst the
catch-all, produces the result. -/
theorem c9_no_match_none (db : MatchDb) (key : Bytes) (hca : db.catchallDevice.isSome = true) :
    ∃ d t, matchLookup db key = some (d, t) ∧ t ≠ MatchType.WurflMatchTypeNone := by
  unfold matchLookup
  cases h1 : db.cache key with
  | some d => exact ⟨d, _, rfl, by decide⟩
  | none =>
    cases h2 : db.exactMatch key with
    | some d => exact ⟨d, _, rfl, by decide⟩
    | none =>
      cases h3 : db.conclusiveMatch key with
      | some d => exact ⟨d, _, rfl, by decide⟩
      | none =>
        cases h4 : db.recoveryMatch key with
        | some d => exact ⟨d, _, rfl, by decide⟩
        | none =>
          cases h5 : db.catchallDevice with
          | some d => exact ⟨d, _, rfl, by decide⟩
          | none =>
            rw [h5] at hca
            simp at hca

/-- C9 witness: an unrecognized key still yields a non-`None` match. -/
theorem c9_witness :
    ∃ d t, matchLookup dbCatchallOnly (strB "UnknownAgent") = some (d, t) ∧
      t ≠ MatchType.WurflMatchTypeNone :=
  c9_no_match_none dbCatchallOnly (strB "UnknownAgent") (by rfl)

/-- C10: `get_match_type` maps the raw codes 0,1,2,3,5,6 to Exact,
Conclusive, Recovery, Catchall, None, Cached respectively, and every other
integer code (the deprecated 4 included) to `None`. -/
theorem c10_match_type_total (d : DeviceData) :
    (d.matchTypeCode = 0 → get_match_type d = .WurflMatchTypeExact) ∧
    (d.matchTypeCode = 1 → get_match_type d = .WurflMatchTypeConclusive) ∧
    (d.matchTypeCode = 2 → get_match_type d = .WurflMatchTypeRecovery) ∧
    (d.matchTypeCode = 3 → get_match_type d = .WurflMatchTypeCatchall) ∧
    (d.matchTypeCode = 5 → get_match_type d = .WurflMatchTypeNone) ∧
    (d.matchTypeCode = 6 → get_match_type d = .WurflMatchTypeCached) ∧
    (d.matchTypeCode ∉ ([0, 1, 2, 3, 5, 6] : List Int) → get_match_type d = .WurflMatchTypeNone) := by
  refine ⟨fun h => ?_, fun h => ?_, fun h => ?_, fun h => ?_, fun h => ?_, fun h => ?_, fun h => ?_⟩
  · simp [get_match_type, match_type_of_code, h]
  · simp [get_match_type, match_type_of_code, h]
  · simp [get_match_type, match_type_of_code, h]
  · simp [get_match_type, match_type_of_code, h]
  · simp [get_match_type, match_type_of_code, h]
  · simp [get_match_type, match_type_of_code, h]
  · simp only [List.mem_cons, List.mem_singleton, not_or] at h
    obtain ⟨h0, h1, h2, h3, h5, h6⟩ := h
    simp [get_match_type, match_type_of_code, h0, h1, h2, h3, h5, h6]

/-- C10 witness: the deprecated code 4 maps to `None`. -/
theorem c10_witness : get_match_type ⟨[], [], [], 4⟩ = MatchType.WurflMatchTypeNone :=
  (c10_match_type_total ⟨[], [], [], 4⟩).2.2.2.2.2.2 (by decide)

/-- C4: the batch operations resolve each requested name independently — a
name undefined for the device is omitted from the result map without
error, a defined (valid) name appears with its value, and the call errs
exactly when some requested name has a NUL byte or some defined value is
not valid UTF-8. -/
theorem c4_batch_independent (d : DeviceData) (names : List Bytes) :
    ((get_capabilities d names).isOk = true ↔
      ∀ n ∈ names, hasNul n = false ∧ ∀ v, lookupCap d.caps n = some v → validUtf8 v = true) ∧
    (∀ m x, get_capabilities d names = .ok m →
      getA m x = if x ∈ names ∧ (lookupCap d.caps x).isSome then lookupCap d.caps x else none) ∧
    ((get_virtual_capabilities d names).isOk = true ↔
      ∀ n ∈ names, hasNul n = false ∧ ∀ v, lookupCap d.vcaps n = some v → validUtf8 v = true) ∧
    (∀ m x, get_virtual_capabilities d names = .ok m →
      getA m x = if x ∈ names ∧ (lookupCap d.vcaps x).isSome then lookupCap d.vcaps x else none) := by
  refine ⟨batch_isOk_iff, fun m x hok => ?_, batch_isOk_iff, fun m x hok => ?_⟩
  · have h := batch_ok_getA hok x
    simpa [getA] using h
  · have h := batch_ok_getA hok x
    simpa [getA] using h

/-- C4 witness: requesting a defined and an undefined name succeeds, keeps
the defined one, and omits the undefined one. -/
theorem c4_witness :
    getA [(strB "brand_name", strB "Apple")] (strB "undefined_cap") =
      if strB "undefined_cap" ∈ [strB "brand_name", strB "undefined_cap"] ∧
          (lookupCap deviceApple.caps (strB "undefined_cap")).isSome
      then lookupCap deviceApple.caps (strB "undefined_cap") else none :=
  (c4_batch_independent deviceApple [strB "brand_name", strB "undefined_cap"]).2.1
    [(strB "brand_name", strB "Apple")] (strB "undefined_cap") (by rfl)

/-- C7 counterexample: with an id absent from the database and non-UTF-8
engine error-message bytes, `lookup_device_id` panics inside
`Wurfl::get_error_message`'s `to_str().unwrap()` instead of returning an
error value. -/
theorem c7_counterexample : (lookup_device_id engineBadMsg (strB "nosuch")).isPanic = true := by
  decide

/-- C7 (amended): for a database whose device ids are NUL-free, looking up
a present id returns the device bearing exactly that id; looking up an
absent id returns an error provided the engine's error-message bytes are
valid UTF-8 — when they are not, the error path panics instead of
returning (and never yields a device either way). -/
theorem c7_lookup_device_id (e : Engine) (id : Bytes)
    (hWf : ∀ d ∈ e.devices, hasNul d.deviceId = false) (hUtf : validUtf8 id = true) :
    ((∃ d0, d0 ∈ e.devices ∧ d0.deviceId = id) →
      ∃ d, lookup_device_id e id = .ok (.ok d) ∧ d.deviceId = id ∧ get_device_id d = .ok id) ∧
    (validUtf8 e.errorMessage = true → (∀ d0 ∈ e.devices, d0.deviceId ≠ id) →
      ∃ err, lookup_device_id e id = .ok (.error err)) ∧
    (validUtf8 e.errorMessage = false → hasNul id = false → (∀ d0 ∈ e.devices, d0.deviceId ≠ id) →
      (lookup_device_id e id).isPanic = true) := by
  refine ⟨?_, ?_, ?_⟩
  · rintro ⟨d0, hmem, hid⟩
    have hnul : hasNul id = false := hid ▸ hWf d0 hmem
    have hfind : (e.devices.find? (fun d => d.deviceId = id)).isSome := by
      rw [List.find?_isSome]
      exact ⟨d0, hmem, by simp [hid]⟩
    obtain ⟨d, hd⟩ := Option.isSome_iff_exists.mp hfind
    have hdid : d.deviceId = id := by
      have hp := List.find?_some hd
      simpa using hp
    refine ⟨d, ?_, hdid, ?_⟩
    · simp [lookup_device_id, hnul, hd]
    · simp [get_device_id, to_str, hdid, hUtf]
  · intro hmsg habs
    by_cases hnul : hasNul id = true
    · refine ⟨⟨strB "Unable to convert device id  " ++ id ++ strB "! into a CString"⟩, ?_⟩
      simp [lookup_device_id, hnul]
    · simp only [Bool.not_eq_true] at hnul
      have hfind : e.devices.find? (fun d => d.deviceId = id) = none := by
        rw [List.find?_eq_none]
        intro x hx
        simp [habs x hx]
      refine ⟨⟨e.errorMessage⟩, ?_⟩
      simp [lookup_device_id, hnul, hfind, engineErrorReturn_valid hmsg]
  · intro hmsg hnul habs
    have hfind : e.devices.find? (fun d => d.deviceId = id) = none := by
      rw [List.find?_eq_none]
      intro x hx
      simp [habs x hx]
    simp [lookup_device_id, hnul, hfind, engineErrorReturn_invalid hmsg]

/-- C7 witness: the fixture's `generic` id is found and carries its own
id. -/
theorem c7_witness :
    ∃ d, lookup_device_id engineOk (strB "generic") = .ok (.ok d) ∧
      d.deviceId = strB "generic" ∧ get_device_id d = .ok (strB "generic") :=
  (c7_lookup_device_id engineOk (strB "generic") (by decide) (by decide)).1
    ⟨devGeneric, by decide, by decide⟩

/-- C8 counterexample: when a construction step fails (here
`wurfl_set_root`) and the engine's error-message bytes are not valid
UTF-8, `Wurfl::new` panics inside `get_error_message` instead of
returning an error. -/
theorem c8_counterexample :
    (wurfl_new envBadMsg (strB "wurfl.xml") none none WurflCacheProvider.NoCache none).isPanic = true := by
  decide

/-- C8 (amended): `Wurfl::new` returns an engine exactly when every
construction step succeeds — handle creation, root path, cache
configuration, every patch, every capability-filter entry, load, and the
enumeration of important headers (each name valid UTF-8 and NUL-free) —
and on success the engine is the fully constructed one; when a step fails,
`Wurfl::new` returns the step's error provided the engine's error-message
bytes and the enumerated names are valid UTF-8, and otherwise panics in
`get_error_message` or `to_owned_string`; in no case is a partially
constructed engine returned. -/
theorem c8_construction_all_or_nothing (env : CEnv) (xml : Bytes) (patches : Option (List Bytes))
    (filt : Option (List Bytes)) (prov : WurflCacheProvider) (cfg : Option Bytes) :
    ((∃ w, wurfl_new env xml patches filt prov cfg = .ok (.ok w)) ↔
      (env.createOk = true ∧ hasNul xml = false ∧ env.setRootOk = true ∧
       (prov = .LRU → ∀ c, cfg = some c → hasNul c = false ∧ env.setCacheOk = true) ∧
       (∀ p ∈ patches.getD [], hasNul p = false ∧ env.patchOk p = true) ∧
       (∀ c ∈ filt.getD [], hasNul c = false ∧ env.capOk c = true) ∧
       env.loadOk = true ∧ env.ihEnumOk = true ∧
       (∀ s ∈ env.importantNames, validUtf8 s = true ∧ hasNul s = false))) ∧
    (∀ w, wurfl_new env xml patches filt prov cfg = .ok (.ok w) →
      w = ⟨env.importantNames, buildImportantMap env.importantNames⟩) ∧
    (validUtf8 env.errorMessage = true → (∀ s ∈ env.importantNames, validUtf8 s = true) →
      (∃ w, wurfl_new env xml patches filt prov cfg = .ok (.ok w)) ∨
      (∃ err, wurfl_new env xml patches filt prov cfg = .ok (.error err))) := by
  cases hcr : env.createOk with
  | false =>
    have hres : wurfl_new env xml patches filt prov cfg = .ok (.error ⟨strB "Wurfl handle is NULL"⟩) := by
      simp [wurfl_new, hcr]
    refine ⟨⟨fun hex => ?_, fun hcond => absurd hcond.1 (by simp)⟩, fun w hw => ?_, fun hmsg hnames => ?_⟩
    · obtain ⟨w, hw⟩ := hex
      rw [hres] at hw
      simp at hw
    · rw [hres] at hw
      simp at hw
    · exact Or.inr ⟨⟨strB "Wurfl handle is NULL"⟩, hres⟩
  | true =>
    cases hx : hasNul xml with
    | true =>
      have hres : wurfl_new env xml patches filt prov cfg =
          .ok (.error ⟨strB "Error creating CString from wurfl xml file path"⟩) := by
        simp [wurfl_new, hcr, hx]
      refine ⟨⟨fun hex => ?_, fun hcond => absurd hcond.2.1 (by simp)⟩, fun w hw => ?_, fun hmsg hnames => ?_⟩
      · obtain ⟨w, hw⟩ := hex
        rw [hres] at hw
        simp at hw
      · rw [hres] at hw
        simp at hw
      · exact Or.inr ⟨⟨strB "Error creating CString from wurfl xml file path"⟩, hres⟩
    | false =>
      cases hsr : env.setRootOk with
      | false =>
        have hres : wurfl_new env xml patches filt prov cfg = engineErrorReturn WurflModel env.errorMessage := by
          simp [wurfl_new, hcr, hx, hsr]
        refine ⟨⟨fun hex => ?_, fun hcond => absurd hcond.2.2.1 (by simp)⟩, fun w hw => ?_,
               fun hmsg hnames => ?_⟩
        · obtain ⟨w, hw⟩ := hex
          rw [hres] at hw
          exact absurd hw engineErrorReturn_ne_ok
        · rw [hres] at hw
          exact absurd hw engineErrorReturn_ne_ok
        · refine Or.inr ⟨⟨env.errorMessage⟩, ?_⟩
          rw [hres, engineErrorReturn_valid hmsg]
      | true =>
        cases hcache : cacheStep env prov cfg with
        | panic p =>
          have hres : wurfl_new env xml patches filt prov cfg = .panic p := by
            simp [wurfl_new, hcr, hx, hsr, hcache]
          refine ⟨⟨fun hex => ?_, fun hcond => ?_⟩, fun w hw => ?_, fun hmsg hnames => ?_⟩
          · obtain ⟨w, hw⟩ := hex
            rw [hres] at hw
            exact RustResult.noConfusion hw
          · have hnone := cacheStep_none_iff.mpr hcond.2.2.2.1
            rw [hcache] at hnone
            exact RustResult.noConfusion hnone
          · rw [hres] at hw
            exact RustResult.noConfusion hw
          · have hnp := cacheStep_not_panic env prov cfg hmsg
            rw [hcache] at hnp
            simp [RustResult.isPanic] at hnp
        | ok ocache =>
          cases ocache with
          | some err =>
            have hres : wurfl_new env xml patches filt prov cfg = .ok (.error err) := by
              simp [wurfl_new, hcr, hx, hsr, hcache]
            refine ⟨⟨fun hex => ?_, fun hcond => ?_⟩, fun w hw => ?_, fun hmsg hnames => ?_⟩
            · obtain ⟨w, hw⟩ := hex
              rw [hres] at hw
              simp at hw
            · have hnone := cacheStep_none_iff.mpr hcond.2.2.2.1
              rw [hcache] at hnone
              simp at hnone
            · rw [hres] at hw
              simp at hw
            · exact Or.inr ⟨err, hres⟩
          | none =>
            cases hpat : addPatches env (patches.getD []) with
            | panic p =>
              have hres : wurfl_new env xml patches filt prov cfg = .panic p := by
                simp [wurfl_new, hcr, hx, hsr, hcache, hpat]
              refine ⟨⟨fun hex => ?_, fun hcond => ?_⟩, fun w hw => ?_, fun hmsg hnames => ?_⟩
              · obtain ⟨w, hw⟩ := hex
                rw [hres] at hw
                exact RustResult.noConfusion hw
              · have hnone := addPatches_none_iff.mpr hcond.2.2.2.2.1
                rw [hpat] at hnone
                exact RustResult.noConfusion hnone
              · rw [hres] at hw
                exact RustResult.noConfusion hw
              · have hnp := addPatches_not_panic env hmsg (patches.getD [])
                rw [hpat] at hnp
                simp [RustResult.isPanic] at hnp
            | ok opat =>
              cases opat with
              | some err =>
                have hres : wurfl_new env xml patches filt prov cfg = .ok (.error err) := by
                  simp [wurfl_new, hcr, hx, hsr, hcache, hpat]
                refine ⟨⟨fun hex => ?_, fun hcond => ?_⟩, fun w hw => ?_, fun hmsg hnames => ?_⟩
                · obtain ⟨w, hw⟩ := hex
                  rw [hres] at hw
                  simp at hw
                · have hnone := addPatches_none_iff.mpr hcond.2.2.2.2.1
                  rw [hpat] at hnone
                  simp at hnone
                · rw [hres] at hw
                  simp at hw
                · exact Or.inr ⟨err, hres⟩
              | none =>
                cases hfil : addCapFilter env (filt.getD []) with
                | panic p =>
                  have hres : wurfl_new env xml patches filt prov cfg = .panic p := by
                    simp [wurfl_new, hcr, hx, hsr, hcache, hpat, hfil]
                  refine ⟨⟨fun hex => ?_, fun hcond => ?_⟩, fun w hw => ?_, fun hmsg hnames => ?_⟩
                  · obtain ⟨w, hw⟩ := hex
                    rw [hres] at hw
                    exact RustResult.noConfusion hw
                  · have hnone := addCapFilter_none_iff.mpr hcond.2.2.2.2.2.1
                    rw [hfil] at hnone
                    exact RustResult.noConfusion hnone
                  · rw [hres] at hw
                    exact RustResult.noConfusion hw
                  · have hnp := addCapFilter_not_panic env hmsg (filt.getD [])
                    rw [hfil] at hnp
                    simp [RustResult.isPanic] at hnp
                | ok ofil =>
                  cases ofil with
                  | some err =>
                    have hres : wurfl_new env xml patches filt prov cfg = .ok (.error err) := by
                      simp [wurfl_new, hcr, hx, hsr, hcache, hpat, hfil]
                    refine ⟨⟨fun hex => ?_, fun hcond => ?_⟩, fun w hw => ?_, fun hmsg hnames => ?_⟩
                    · obtain ⟨w, hw⟩ := hex
                      rw [hres] at hw
                      simp at hw
                    · have hnone := addCapFilter_none_iff.mpr hcond.2.2.2.2.2.1
                      rw [hfil] at hnone
                      simp at hnone
                    · rw [hres] at hw
                      simp at hw
                    · exact Or.inr ⟨err, hres⟩
                  | none =>
                    cases hload : env.loadOk with
                    | false =>
                      have hres : wurfl_new env xml patches filt prov cfg =
                          engineErrorReturn WurflModel env.errorMessage := by
                        simp [wurfl_new, hcr, hx, hsr, hcache, hpat, hfil, hload]
                      refine ⟨⟨fun hex => ?_, fun hcond => absurd hcond.2.2.2.2.2.2.1 (by simp)⟩,
                             fun w hw => ?_, fun hmsg hnames => ?_⟩
                      · obtain ⟨w, hw⟩ := hex
                        rw [hres] at hw
                        exact absurd hw engineErrorReturn_ne_ok
                      · rw [hres] at hw
                        exact absurd hw engineErrorReturn_ne_ok
                      · refine Or.inr ⟨⟨env.errorMessage⟩, ?_⟩
                        rw [hres, engineErrorReturn_valid hmsg]
                    | true =>
                      cases hihe : env.ihEnumOk with
                      | false =>
                        have hres : wurfl_new env xml patches filt prov cfg =
                            engineErrorReturn WurflModel env.errorMessage := by
                          simp [wurfl_new, hcr, hx, hsr, hcache, hpat, hfil, hload, hihe]
                        refine ⟨⟨fun hex => ?_, fun hcond => absurd hcond.2.2.2.2.2.2.2.1 (by simp)⟩,
                               fun w hw => ?_, fun hmsg hnames => ?_⟩
                        · obtain ⟨w, hw⟩ := hex
                          rw [hres] at hw
                          exact absurd hw engineErrorReturn_ne_ok
                        · rw [hres] at hw
                          exact absurd hw engineErrorReturn_ne_ok
                        · refine Or.inr ⟨⟨env.errorMessage⟩, ?_⟩
                          rw [hres, engineErrorReturn_valid hmsg]
                      | true =>
                        cases hread : readImportantHeaders [] [] env.importantNames with
                        | panic p =>
                          have hres : wurfl_new env xml patches filt prov cfg = .panic p := by
                            simp [wurfl_new, hcr, hx, hsr, hcache, hpat, hfil, hload, hihe, hread]
                          refine ⟨⟨fun hex => ?_, fun hcond => ?_⟩, fun w hw => ?_, fun hmsg hnames => ?_⟩
                          · obtain ⟨w, hw⟩ := hex
                            rw [hres] at hw
                            exact RustResult.noConfusion hw
                          · obtain ⟨r, hr⟩ := readIH_ok_iff.mpr hcond.2.2.2.2.2.2.2.2
                            rw [hread] at hr
                            exact RustResult.noConfusion hr
                          · rw [hres] at hw
                            exact RustResult.noConfusion hw
                          · have hnp := readIH_not_panic env.importantNames [] [] hnames
                            rw [hread] at hnp
                            simp [RustResult.isPanic] at hnp
                        | ok rex =>
                          cases rex with
                          | error err =>
                            have hres : wurfl_new env xml patches filt prov cfg = .ok (.error err) := by
                              simp [wurfl_new, hcr, hx, hsr, hcache, hpat, hfil, hload, hihe, hread]
                            refine ⟨⟨fun hex => ?_, fun hcond => ?_⟩, fun w hw => ?_, fun hmsg hnames => ?_⟩
                            · obtain ⟨w, hw⟩ := hex
                              rw [hres] at hw
                              simp at hw
                            · obtain ⟨r, hr⟩ := readIH_ok_iff.mpr hcond.2.2.2.2.2.2.2.2
                              rw [hread] at hr
                              simp at hr
                            · rw [hres] at hw
                              simp at hw
                            · exact Or.inr ⟨err, hres⟩
                          | ok r =>
                            obtain ⟨rn, rm⟩ := r
                            have hrval := readIH_ok_val hread
                            simp only [List.nil_append] at hrval
                            have hrn : rn = env.importantNames := congrArg Prod.fst hrval
                            have hrm : rm = env.importantNames.foldl (fun m s => insertHM m (lowerBytes s) s) [] :=
                              congrArg Prod.snd hrval
                            have heval : wurfl_new env xml patches filt prov cfg = .ok (.ok ⟨rn, rm⟩) := by
                              simp [wurfl_new, hcr, hx, hsr, hcache, hpat, hfil, hload, hihe, hread]
                            refine ⟨⟨fun hex => ?_, fun hcond => ⟨⟨rn, rm⟩, heval⟩⟩, fun w hw => ?_,
                                   fun hmsg hnames => Or.inl ⟨⟨rn, rm⟩, heval⟩⟩
                            · exact ⟨rfl, rfl, rfl, cacheStep_none_iff.mp hcache, addPatches_none_iff.mp hpat,
                                     addCapFilter_none_iff.mp hfil, rfl, rfl,
                                     readIH_ok_iff.mp ⟨(rn, rm), hread⟩⟩
                            · have h2 := heval.symm.trans hw
                              injection h2 with h3
                              injection h3 with h4
                              rw [← h4, hrn, hrm]
                              rfl

/-- C8 witness: a fully successful construction yields an engine. -/
theorem c8_witness :
    ∃ w, wurfl_new envOk (strB "wurfl.xml") none none WurflCacheProvider.LRU
      (some (strB "100000")) = .ok (.ok w) :=
  (c8_construction_all_or_nothing envOk (strB "wurfl.xml") none none .LRU (some (strB "100000"))).1.mpr
    ⟨rfl, by decide, rfl,
     by
       intro _ c hc
       have hce := Option.some.inj hc
       subst hce
       exact ⟨by decide, rfl⟩,
     by simp, by simp, rfl, rfl, by decide⟩

/-- C6 counterexample: the same set of (name, value) pairs iterated in two
orders yields different lookup results when two distinct header names
case-fold to the same important header — the later set call overwrites the
earlier one, so the composed matching key is not order-independent. -/
theorem c6_counterexample :
    headersAB.Perm headersAB.reverse ∧
    lookup_with_headers engineKeyed headersAB ≠ lookup_with_headers engineKeyed headersAB.reverse := by
  refine ⟨(List.reverse_perm headersAB).symm, ?_⟩
  have hfwd : lookup_with_headers engineKeyed headersAB = .ok (.ok ⟨[50], [], [], 0⟩) := by rfl
  have hrev : lookup_with_headers engineKeyed headersAB.reverse = .ok (.ok ⟨[49], [], [], 0⟩) := by rfl
  rw [hfwd, hrev]
  intro hcontra
  injection hcontra with h1
  injection h1 with h2
  exact absurd (congrArg DeviceData.deviceId h2) (by decide)

/-- C6 (amended): when no two header names in the map case-fold to the same
lower-cased name, `lookup_with_headers` is invariant under reordering of
the header pairs — the composed matching key, and hence the result, is
order-independent. -/
theorem c6_order_independent (e : Engine) (h1 h2 : List (Bytes × Bytes)) (hp : h1.Perm h2)
    (hnd : (h1.map fun kv => lowerBytes kv.1).Nodup) :
    lookup_with_headers e h1 = lookup_with_headers e h2 := by
  cases hc : e.ihCreateOk with
  | false => simp [lookup_with_headers, hc]
  | true =>
    have hinv : ∀ p ∈ importantHeaderCStringNames e, p.1 = lowerBytes p.2 :=
      fun p hpm => (buildMap_mem hpm).1
    have hok : (selectHeaders (importantHeaderCStringNames e) h1).isOk =
        (selectHeaders (importantHeaderCStringNames e) h2).isOk := by
      rw [select_isOk_eq, select_isOk_eq]
      have hany : (h1.any (badHeader (importantHeaderCStringNames e))) =
          (h2.any (badHeader (importantHeaderCStringNames e))) := by
        cases hb1 : h1.any (badHeader (importantHeaderCStringNames e)) with
        | true =>
          rw [List.any_eq_true] at hb1
          obtain ⟨x, hx, hbx⟩ := hb1
          exact (List.any_eq_true.mpr ⟨x, hp.mem_iff.mp hx, hbx⟩).symm
        | false =>
          rw [List.any_eq_false] at hb1
          exact ((List.any_eq_false).mpr fun x hx => hb1 x (hp.mem_iff.mpr hx)).symm
      rw [hany]
    cases hs1 : selectHeaders (importantHeaderCStringNames e) h1 with
    | error e1 =>
      rw [hs1] at hok
      cases hs2 : selectHeaders (importantHeaderCStringNames e) h2 with
      | error e2 =>
        have he1 := select_error_msg hs1
        have he2 := select_error_msg hs2
        simp only [lookup_with_headers, hc, hs1, hs2]
        rw [he1, he2]
      | ok t =>
        rw [hs2] at hok
        simp [Except.isOk, Except.toBool] at hok
    | ok s1 =>
      rw [hs1] at hok
      cases hs2 : selectHeaders (importantHeaderCStringNames e) h2 with
      | error e2 =>
        rw [hs2] at hok
        simp [Except.isOk, Except.toBool] at hok
      | ok s2 =>
        have hfun : applySets s1 = applySets s2 := by
          funext n
          rw [applySets_eq_selValue hs1 n, applySets_eq_selValue hs2 n]
          exact selValue_perm hinv hp hnd n
        simp only [lookup_with_headers, hc, hs1, hs2]
        rw [hfun]

/-- C6 witness: reordering two distinct important headers whose names do
not case-fold together leaves the lookup unchanged. -/
theorem c6_witness :
    lookup_with_headers engineKeyed [([65], [49]), ([66], [50])] =
      lookup_with_headers engineKeyed [([66], [50]), ([65], [49])] :=
  c6_order_independent engineKeyed [([65], [49]), ([66], [50])] [([66], [50]), ([65], [49])]
    (List.Perm.swap ([66], [50]) ([65], [49]) []) (by decide)
